import Mathlib

/-!
Verification of the asmith Matrix to-do bot (`asmith.py`) against its
natural-language specification.

This file contains a shallow embedding of the persistence and
state-reconciliation core of `asmith.py`:

* `Task` and its mutators (`Task.__init__`, `add_internal_log`, `add_log`,
  `set_status`, `set_title`);
* the `todo_lists` room-to-task-list mapping of `StorageManager` together
  with `save`, `load` and `list_saved_files`, where the filesystem is
  represented explicitly as a filename-to-content map and JSON records are
  represented as typed records with optional fields (a missing key is
  `none`, which makes the corresponding `task_data[...]` access raise and
  the surrounding `try` return `False`);
* the `TodoList` command handlers (`add_task`, `done_task`, `close_task`,
  `log_task`, `edit_task`) and `BotManagement.clear_tasks`;
* `ConnectionMonitor` with `connection_successful` / `connection_failed`.

Python-specific behaviours that matter for the claims are modelled
explicitly: the `re.match` semantics of the filename pattern (where `.`
matches any character except a newline, and `$` also matches just before a
single trailing newline), Python list/dict semantics (insertion order,
truthiness of empty collections, `x or []`), the character slice
`x[-24:-5]` used as the sort key of `list_saved_files`, and the stable
ascending key sort performed by `list.sort`.
-/

namespace Asmith

/-- Model of `APP_NAME`: the default value of the `ASMITH_APP_NAME` environment
variable, used both in `save` filenames and in `filename_pattern`. -/
def APP_NAME : String := "asmith"

/-- Model of `TaskEvent.CREATED` constant. -/
def TaskEvent.CREATED : String := "task_created"

/-- Model of `TaskEvent.STATUS_UPDATED` constant. -/
def TaskEvent.STATUS_UPDATED : String := "task_status_updated"

/-- Model of `TaskEvent.LOG_ADDED` constant. -/
def TaskEvent.LOG_ADDED : String := "task_log_added"

/-- Model of `TaskEvent.TITLE_EDITED` constant. -/
def TaskEvent.TITLE_EDITED : String := "task_title_edited"

/-- A `Task` object: the five persisted data fields plus `internal_logs`
(the history of `(timestamp, user, action)` triples). -/
structure Task where
  id : Int
  title : String
  status : String
  logs : List String
  internal_logs : List (String × String × String)
  creator : String
  deriving Repr, DecidableEq

/-- Model of `Task.add_internal_log(sender, log, extra_info)`.  The timestamp
produced by `datetime.now().strftime(...)` is passed in as `now`. -/
def Task.add_internal_log (t : Task) (sender log extra_info now : String) : Task :=
  let action := if extra_info = "" then log else log ++ ": " ++ extra_info
  { t with internal_logs := t.internal_logs ++ [(now, sender, action)] }

/-- Python `logs or []`: both `None` and an empty list are falsy and
produce a (fresh) empty list; a non-empty list is kept. -/
def pyOrEmptyList (logs : Option (List String)) : List String :=
  match logs with
  | none => []
  | some l => if l.isEmpty then [] else l

/-- Model of `Task.__init__(sender, id, title, status, logs, creator)`: sets the
fields, defaults `creator` to `sender`, and appends the `task_created`
history entry via `add_internal_log`. -/
def Task.init (sender : String) (id : Int) (title status : String)
    (logs : Option (List String)) (creator : Option String) (now : String) : Task :=
  (({ id := id, title := title, status := status,
      logs := pyOrEmptyList logs,
      internal_logs := [],
      creator := creator.getD sender } : Task)).add_internal_log sender TaskEvent.CREATED "" now

/-- Model of `f"{s[:30]}{chr(46)*3 if len(s) > 30 else chr(0)*0}"`: the 30-character
truncation used when formatting history entries. -/
def truncate30 (s : String) : String :=
  String.mk (s.data.take 30) ++ (if 30 < s.data.length then "..." else "")

/-- Model of `Task.add_log(sender, log)`: appends to `logs` and records a
`task_log_added` history entry. -/
def Task.add_log (t : Task) (sender log now : String) : Task :=
  (({ t with logs := t.logs ++ [log] } : Task)).add_internal_log sender
    TaskEvent.LOG_ADDED ("\x27" ++ truncate30 log ++ "\x27") now

/-- Model of `Task.set_status(sender, status)`: replaces `status` and records a
`task_status_updated` history entry mentioning old and new value. -/
def Task.set_status (t : Task) (sender status now : String) : Task :=
  (({ t with status := status } : Task)).add_internal_log sender
    TaskEvent.STATUS_UPDATED
    ("from \x27" ++ t.status ++ "\x27 to \x27" ++ status ++ "\x27") now

/-- Model of `Task.set_title(sender, title)`: replaces `title` and records a
`task_title_edited` history entry with both titles truncated. -/
def Task.set_title (t : Task) (sender title now : String) : Task :=
  (({ t with title := title } : Task)).add_internal_log sender
    TaskEvent.TITLE_EDITED
    ("from \x27" ++ truncate30 t.title ++ "\x27 to \x27" ++ truncate30 title ++ "\x27") now

/-- The `todo_lists` dict of `StorageManager`: an insertion-ordered map
from room id to its task list. -/
abbrev Store := List (String × List Task)

/-- Python `room_id in todo_lists`. -/
def containsRoom : Store → String → Bool
  | [], _ => false
  | (r, _) :: rest, room => r = room || containsRoom rest room

/-- Model of `todo_lists.get(room_id, [])` (also the value of `todo_lists[room_id]`
when the key is present). -/
def getRoom : Store → String → List Task
  | [], _ => []
  | (r, ts) :: rest, room => if r = room then ts else getRoom rest room

/-- Model of `todo_lists[room_id] = tasks`: updates the entry in place when the key
is present, otherwise appends a new entry (dict insertion order). -/
def setRoom : Store → String → List Task → Store
  | [], room, tasks => [(room, tasks)]
  | (r, ts) :: rest, room, tasks =>
      if r = room then (r, tasks) :: rest
      else (r, ts) :: setRoom rest room tasks

/-- One serialized task record as written by `json.dump(...,
default=lambda o: o.__dict__)` and read back by `json.load`.  Each field
is optional: `task_data["id"]`, `["title"]`, `["status"]` raise a
`KeyError` when missing, while `logs`, `internal_logs` and `creator` are
read with defaults. -/
structure TaskData where
  id : Option Int
  title : Option String
  status : Option String
  logs : Option (List String)
  internal_logs : Option (List (String × String × String))
  creator : Option String
  deriving Repr, DecidableEq

/-- The parsed content of one snapshot file: the JSON object mapping room
ids to arrays of task records. -/
abbrev FileData := List (String × List TaskData)

/-- Model of `lambda o: o.__dict__` applied to a `Task`: every field is present. -/
def serializeTask (t : Task) : TaskData :=
  { id := some t.id, title := some t.title, status := some t.status,
    logs := some t.logs, internal_logs := some t.internal_logs,
    creator := some t.creator }

/-- Model of `json.dump(self.todo_lists, ...)`: the file content written by `save`. -/
def serializeStore (store : Store) : FileData :=
  store.map (fun p => (p.1, p.2.map serializeTask))

/-- Reconstruction of one task inside `StorageManager.load`:
`Task(task_data.get("creator", "Unknown"), task_data["id"],
task_data["title"], task_data["status"], task_data.get("logs", []),
task_data.get("creator", "Unknown"))`, then
`task.internal_logs = task_data["internal_logs"]` when the key is present.
A missing required key raises, modelled as `none`. -/
def loadTask (d : TaskData) (now : String) : Option Task :=
  match d.id, d.title, d.status with
  | some id, some title, some status =>
      let t := Task.init (d.creator.getD "Unknown") id title status
        (some (d.logs.getD [])) (some (d.creator.getD "Unknown")) now
      some (match d.internal_logs with
            | some ils => { t with internal_logs := ils }
            | none => t)
  | _, _, _ => none

/-- The inner loop of `StorageManager.load` over the task records of one
room; any raising record aborts the whole load. -/
def loadRoomTasks (tds : List TaskData) (now : String) : Option (List Task) :=
  match tds with
  | [] => some []
  | d :: rest =>
      match loadTask d now, loadRoomTasks rest now with
      | some t, some ts => some (t :: ts)
      | _, _ => none

/-- The outer loop of `StorageManager.load`: builds
`reconstructed_todo_lists` room by room; `none` models the exception
path. -/
def reconstructStore (data : FileData) (now : String) : Option Store :=
  match data with
  | [] => some []
  | (room, tds) :: rest =>
      match loadRoomTasks tds now, reconstructStore rest now with
      | some ts, some s => some ((room, ts) :: s)
      | _, _ => none

/-- Character classes of the fixed-width 26-character tail
`_[0-9]{4}-[0-9]{2}-[0-9]{2}_[0-9]{2}-[0-9]{2}-[0-9]{2}Z\.json` of
`filename_pattern`. -/
def tailClasses : List (Char → Bool) :=
  [(· = '_'), Char.isDigit, Char.isDigit, Char.isDigit, Char.isDigit,
   (· = '-'), Char.isDigit, Char.isDigit,
   (· = '-'), Char.isDigit, Char.isDigit,
   (· = '_'), Char.isDigit, Char.isDigit,
   (· = '-'), Char.isDigit, Char.isDigit,
   (· = '-'), Char.isDigit, Char.isDigit,
   (· = 'Z'), (· = '.'), (· = 'j'), (· = 's'), (· = 'o'), (· = 'n')]

/-- Matches a character list against a list of character classes of the
same length. -/
def matchClasses : List (Char → Bool) → List Char → Bool
  | [], [] => true
  | p :: ps, c :: cs => p c && matchClasses ps cs
  | _, _ => false

/-- The anchored regex
`^asmith_.+_[0-9]{4}-[0-9]{2}-[0-9]{2}_[0-9]{2}-[0-9]{2}-[0-9]{2}Z\.json$`
on a string with no trailing newline.  Everything after `.+` has fixed
width 26, so the regex matches exactly when the string starts with
`asmith_`, its last 26 characters match `tailClasses`, and the characters
in between are a non-empty run free of newlines (in Python, `.` matches
every character except a newline). -/
def coreMatch (cs : List Char) : Bool :=
  let n := cs.length
  decide (34 ≤ n) &&
  decide (cs.take 7 = "asmith_".data) &&
  matchClasses tailClasses (cs.drop (n - 26)) &&
  (let mid := (cs.drop 7).take (n - 33)
   decide (mid ≠ []) && mid.all (fun c => c != '\n'))

/-- Model of `StorageManager.filename_pattern.match(s)` as a boolean, with the
Python semantics of the `$` anchor: it also matches just before a single
trailing newline. -/
def filename_pattern_match (s : String) : Bool :=
  coreMatch s.data ||
  (match s.data.getLast? with
   | some c => (c == '\n') && coreMatch s.data.dropLast
   | none => false)

/-- The filesystem visible to `StorageManager`: a map from filename to
parsed snapshot content.  An entry `(name, none)` is a file whose
`json.load` raises (malformed JSON); an absent name is a missing file
(`open` raises). -/
abbrev FileSystem := List (String × Option FileData)

/-- Model of `json.load(open(filepath))`: yields the parsed content of the named
file, or `none` on the exception path (missing file or malformed JSON). -/
def readParsedFile : FileSystem → String → Option FileData
  | [], _ => none
  | (name, content) :: rest, fn => if name = fn then content else readParsedFile rest fn

/-- Model of `StorageManager.load(filename)`: validates the filename against
`filename_pattern` before any filesystem access, then reads, parses and
reconstructs; returns the new in-memory mapping and the success flag.  On
any failure the current mapping `cur` is returned unchanged. -/
def StorageManager.load (fs : FileSystem) (cur : Store) (filename now : String) :
    Store × Bool :=
  if filename_pattern_match filename then
    match readParsedFile fs filename with
    | some data =>
        match reconstructStore data now with
        | some s => (s, true)
        | none => (cur, false)
    | none => (cur, false)
  else (cur, false)

/-- The character `chr(48 + k % 10)`, i.e. the decimal digit character for
`k % 10`. -/
def digitChar (k : Nat) : Char := Char.ofNat (48 + k % 10)

/-- A UTC wall-clock instant as used by `datetime.now(timezone.utc)`.
`datetime` guarantees `1 ≤ year ≤ 9999`, `1 ≤ month ≤ 12`, etc. -/
structure UtcTime where
  year : Nat
  month : Nat
  day : Nat
  hour : Nat
  minute : Nat
  second : Nat
  deriving Repr, DecidableEq

/-- The characters of `current_time.strftime("%Y-%m-%d_%H-%M-%SZ")`:
every numeric field rendered as fixed-width zero-padded decimal digits. -/
def strftimeZdata (t : UtcTime) : List Char :=
  [digitChar (t.year / 1000), digitChar (t.year / 100), digitChar (t.year / 10), digitChar t.year,
   '-', digitChar (t.month / 10), digitChar t.month,
   '-', digitChar (t.day / 10), digitChar t.day,
   '_', digitChar (t.hour / 10), digitChar t.hour,
   '-', digitChar (t.minute / 10), digitChar t.minute,
   '-', digitChar (t.second / 10), digitChar t.second, 'Z']

/-- Model of `current_time.strftime("%Y-%m-%d_%H-%M-%SZ")`. -/
def strftimeZ (t : UtcTime) : String := String.mk (strftimeZdata t)

/-- The filename produced by `StorageManager.save`:
`f"{APP_NAME}_{self.session_id}_{current_time.strftime(...)}.json"`. -/
def save_filename (session_id : String) (t : UtcTime) : String :=
  APP_NAME ++ "_" ++ session_id ++ "_" ++ strftimeZ t ++ ".json"

/-- Model of `StorageManager.save()`: writes the serialized mapping to the
timestamped filename (a write shadows any previous content under the same
name) and returns the filename. -/
def StorageManager.save (fs : FileSystem) (store : Store) (session_id : String)
    (t : UtcTime) : FileSystem × String :=
  ((save_filename session_id t, some (serializeStore store)) :: fs,
   save_filename session_id t)

/-- The Python slice `x[-24:-5]` used as the sort key in
`list_saved_files` (negative indices clamp to the start of the string). -/
def sortKeySlice (s : String) : String :=
  let n := s.data.length
  String.mk (((s.data).drop (n - 24)).take ((n - 5) - (n - 24)))

/-- Python string comparison: lexicographic over code points. -/
def lexLe : List Char → List Char → Bool
  | [], _ => true
  | _ :: _, [] => false
  | c :: cs, d :: ds =>
      if c.toNat < d.toNat then true
      else if d.toNat < c.toNat then false
      else lexLe cs ds

/-- Stable insertion of a string into a key-sorted list: placed before the
first element whose key is not smaller. -/
def insertByKey (key : String → String) (x : String) : List String → List String
  | [] => [x]
  | y :: ys =>
      if lexLe (key x).data (key y).data then x :: y :: ys else y :: insertByKey key x ys

/-- A stable ascending sort by key — the specification of Python
`list.sort(key=...)`. -/
def sortByKey (key : String → String) : List String → List String
  | [] => []
  | x :: xs => insertByKey key x (sortByKey key xs)

/-- Model of `StorageManager.list_saved_files()`: filters the directory listing
through `filename_pattern` and sorts by the `x[-24:-5]` slice. -/
def list_saved_files (dirListing : List String) : List String :=
  sortByKey sortKeySlice (dirListing.filter (fun f => filename_pattern_match f))

/-- Model of `BotManagement.loadlast_command`: picks the last element of
`list_saved_files()` and loads it; reports `none` ("no files found") when
there are no valid files. -/
def loadlast (fs : FileSystem) (dirListing : List String) (cur : Store) (now : String) :
    Store × Bool × Option String :=
  match (list_saved_files dirListing).getLast? with
  | none => (cur, false, none)
  | some most_recent =>
      let r := StorageManager.load fs cur most_recent now
      (r.1, r.2, some most_recent)

/-- The distinct replies sent by the command handlers that the claims
distinguish. -/
inductive Reply where
  | noTasks
  | invalidTaskNumber (n : Int)
  | taskDone (t : Task)
  | taskClosed (t : Task)
  deriving Repr, DecidableEq

/-- Model of `TodoList.add_task(room_id, sender, task_title)`: ensures the room
entry exists, appends a new pending `Task` whose id is the length of the
list before insertion, and returns it (the subsequent snapshot save is
performed by the caller model). -/
def add_task (store : Store) (room sender title now : String) : Store × Task :=
  let tasks := getRoom store room
  let new_task := Task.init sender tasks.length title "pending" (some []) none now
  (setRoom store room (tasks ++ [new_task]), new_task)

/-- Model of `TodoList.done_task(room_id, sender, task_number)`: on an empty list
replies "no tasks"; on `0 < task_number <= len(tasks)` pops the task, sets
its status to "done" and saves; otherwise replies "invalid task number".
The boolean records whether a snapshot save was triggered. -/
def done_task (store : Store) (room sender : String) (task_number : Int) (now : String) :
    Store × Reply × Bool :=
  let tasks := getRoom store room
  if tasks.isEmpty then (store, Reply.noTasks, false)
  else if 0 < task_number ∧ task_number ≤ tasks.length then
    match tasks.get? (task_number - 1).toNat with
    | some removed =>
        (setRoom store room (tasks.eraseIdx (task_number - 1).toNat),
         Reply.taskDone (removed.set_status sender "done" now), true)
    | none => (store, Reply.invalidTaskNumber task_number, false)
  else (store, Reply.invalidTaskNumber task_number, false)

/-- Model of `TodoList.close_task(room_id, sender, task_number)`: identical to
`done_task` with status "closed". -/
def close_task (store : Store) (room sender : String) (task_number : Int) (now : String) :
    Store × Reply × Bool :=
  let tasks := getRoom store room
  if tasks.isEmpty then (store, Reply.noTasks, false)
  else if 0 < task_number ∧ task_number ≤ tasks.length then
    match tasks.get? (task_number - 1).toNat with
    | some removed =>
        (setRoom store room (tasks.eraseIdx (task_number - 1).toNat),
         Reply.taskClosed (removed.set_status sender "closed" now), true)
    | none => (store, Reply.invalidTaskNumber task_number, false)
  else (store, Reply.invalidTaskNumber task_number, false)

/-- Model of `TodoList.log_task(room_id, sender, task_number, log)`: in-place
`add_log` on the addressed task; the boolean records whether a save was
triggered. -/
def log_task (store : Store) (room sender : String) (task_number : Int) (log now : String) :
    Store × Bool :=
  let tasks := getRoom store room
  if tasks.isEmpty then (store, false)
  else if 0 < task_number ∧ task_number ≤ tasks.length then
    match tasks.get? (task_number - 1).toNat with
    | some task =>
        (setRoom store room
          (tasks.set (task_number - 1).toNat (task.add_log sender log now)), true)
    | none => (store, false)
  else (store, false)

/-- Model of `TodoList.edit_task(room_id, sender, task_number, new_title)`:
in-place `set_title` on the addressed task. -/
def edit_task (store : Store) (room sender : String) (task_number : Int) (title now : String) :
    Store × Bool :=
  let tasks := getRoom store room
  if tasks.isEmpty then (store, false)
  else if 0 < task_number ∧ task_number ≤ tasks.length then
    match tasks.get? (task_number - 1).toNat with
    | some task =>
        (setRoom store room
          (tasks.set (task_number - 1).toNat (task.set_title sender title now)), true)
    | none => (store, false)
  else (store, false)

/-- Model of `BotManagement.clear_tasks(room_id)`: empties the room's list and
saves only when `room_id in todo_lists and todo_lists[room_id]` is truthy;
otherwise leaves everything untouched and sends the "nothing to clear"
info reply.  The boolean records whether a save was triggered. -/
def clear_tasks (store : Store) (room : String) : Store × Bool :=
  if containsRoom store room ∧ ¬(getRoom store room).isEmpty then
    (setRoom store room [], true)
  else (store, false)

/-- Model of `ConnectionMonitor` state. Timestamps are abstract ticks. -/
structure ConnectionMonitor where
  max_retries : Nat
  consecutive_failures : Nat
  total_failures : Nat
  failure_types : List (String × Nat)
  last_failure_time : Option Nat
  first_failure_time : Option Nat
  deriving Repr, DecidableEq

/-- Model of `ConnectionMonitor.__init__(max_retries)`. -/
def ConnectionMonitor.init (max_retries : Nat) : ConnectionMonitor :=
  { max_retries := max_retries, consecutive_failures := 0, total_failures := 0,
    failure_types := [], last_failure_time := none, first_failure_time := none }

/-- Model of `ConnectionMonitor.connection_successful()`: clears only the
consecutive-failure counter. -/
def connection_successful (m : ConnectionMonitor) : ConnectionMonitor :=
  { m with consecutive_failures := 0 }

/-- The `failure_types` histogram update inside `connection_failed`. -/
def bumpFailureType : List (String × Nat) → String → List (String × Nat)
  | [], e => [(e, 1)]
  | (k, c) :: rest, e =>
      if k = e then (k, c + 1) :: rest else (k, c) :: bumpFailureType rest e

/-- The `critical_errors` list of `connection_failed`. -/
def critical_errors : List String :=
  ["LoginError", "SyncError", "LocalProtocolError", "OlmUnpickleError", "EncryptionError"]

/-- Model of `ConnectionMonitor.connection_failed(error_type)`: records the
failure, then returns `True` ("exit now") when the error type is critical
and at least two consecutive failures have occurred, or when the
consecutive count has reached `max_retries`. -/
def connection_failed (m : ConnectionMonitor) (error_type : String) (now : Nat) :
    ConnectionMonitor × Bool :=
  let m1 := if m.consecutive_failures = 0 then { m with first_failure_time := some now } else m
  let m2 := { m1 with
    consecutive_failures := m1.consecutive_failures + 1,
    total_failures := m1.total_failures + 1,
    last_failure_time := some now,
    failure_types := bumpFailureType m1.failure_types error_type }
  if error_type ∈ critical_errors ∧ 2 ≤ m2.consecutive_failures then (m2, true)
  else if m2.max_retries ≤ m2.consecutive_failures then (m2, true)
  else (m2, false)

/-! ### Supporting lemmas about the room mapping -/

/-- Writing a room's list and reading the same room gives back the list. -/
theorem getRoom_setRoom_self (store : Store) (room : String) (ts : List Task) :
    getRoom (setRoom store room ts) room = ts := by
  induction store with
  | nil => simp [setRoom, getRoom]
  | cons p rest ih =>
      obtain ⟨r, t0⟩ := p
      by_cases h : r = room
      · simp [setRoom, getRoom, h]
      · simp [setRoom, getRoom, h, ih]

/-- Writing a room's list leaves every other room's list unchanged. -/
theorem getRoom_setRoom_other (store : Store) (room r : String) (ts : List Task)
    (h : r ≠ room) : getRoom (setRoom store room ts) r = getRoom store r := by
  induction store with
  | nil => simp [setRoom, getRoom, Ne.symm h]
  | cons p rest ih =>
      obtain ⟨r0, t0⟩ := p
      by_cases h0 : r0 = room
      · subst h0
        simp [setRoom, getRoom, Ne.symm h]
      · simp [setRoom, getRoom, h0, ih]

/-- A room with a non-empty task list is a key of the dict. -/
theorem containsRoom_of_getRoom_ne_nil (store : Store) (room : String)
    (h : getRoom store room ≠ []) : containsRoom store room = true := by
  induction store with
  | nil => simp [getRoom] at h
  | cons p rest ih =>
      obtain ⟨r, t0⟩ := p
      by_cases h0 : r = room
      · simp [containsRoom, h0]
      · simp only [getRoom, if_neg h0] at h
        simp [containsRoom, h0, ih h]

/-! ### C10: frame property of `clear_tasks` -/

/-- C10: `clear_tasks` on a room whose task list is absent or empty leaves
the whole mapping unchanged and triggers no snapshot save; on a room with
tasks it empties exactly that room's list, leaves every other room's list
unchanged, and triggers a save. -/
theorem c10_clear_tasks_frame (store : Store) (room : String) :
    (getRoom store room = [] → clear_tasks store room = (store, false)) ∧
    (getRoom store room ≠ [] →
       clear_tasks store room = (setRoom store room [], true) ∧
       getRoom (setRoom store room []) room = [] ∧
       ∀ r, r ≠ room → getRoom (setRoom store room []) r = getRoom store r) := by
  constructor
  · intro h
    simp [clear_tasks, h]
  · intro h
    have hc := containsRoom_of_getRoom_ne_nil store room h
    refine ⟨by simp [clear_tasks, hc, h], getRoom_setRoom_self store room [], ?_⟩
    intro r hr
    exact getRoom_setRoom_other store room r [] hr

/-- Witness for C10 at concrete inputs: an absent room is left alone; a
populated room is emptied with a save, and another room's list survives. -/
theorem c10_clear_tasks_frame_witness :
    clear_tasks [] "!a" = ([], false) ∧
    (clear_tasks [("!a", [Task.init "u" 0 "t" "pending" (some []) none "ts"]),
        ("!b", [Task.init "v" 0 "s" "pending" (some []) none "ts"])] "!a" =
      (setRoom [("!a", [Task.init "u" 0 "t" "pending" (some []) none "ts"]),
        ("!b", [Task.init "v" 0 "s" "pending" (some []) none "ts"])] "!a" [], true) ∧
     getRoom (setRoom [("!a", [Task.init "u" 0 "t" "pending" (some []) none "ts"]),
        ("!b", [Task.init "v" 0 "s" "pending" (some []) none "ts"])] "!a" []) "!a" = [] ∧
     ∀ r, r ≠ "!a" →
       getRoom (setRoom [("!a", [Task.init "u" 0 "t" "pending" (some []) none "ts"]),
          ("!b", [Task.init "v" 0 "s" "pending" (some []) none "ts"])] "!a" []) r =
       getRoom [("!a", [Task.init "u" 0 "t" "pending" (some []) none "ts"]),
          ("!b", [Task.init "v" 0 "s" "pending" (some []) none "ts"])] r) :=
  ⟨(c10_clear_tasks_frame [] "!a").1 rfl,
   (c10_clear_tasks_frame [("!a", [Task.init "u" 0 "t" "pending" (some []) none "ts"]),
      ("!b", [Task.init "v" 0 "s" "pending" (some []) none "ts"])] "!a").2 (by decide)⟩

/-! ### C3: out-of-range `done`/`close` -/

/-- C3 (amended): an out-of-range removal request (including every request
on an empty list) leaves the whole mapping unchanged and triggers no save;
the reply is the "no tasks" info reply when the list is empty and the
"invalid task number" error reply otherwise. -/
theorem c3_remove_out_of_range (store : Store) (room sender now : String)
    (task_number : Int)
    (h : ¬(0 < task_number ∧ task_number ≤ ((getRoom store room).length : Int))) :
    done_task store room sender task_number now =
      (store,
       if (getRoom store room).isEmpty then Reply.noTasks
       else Reply.invalidTaskNumber task_number, false) ∧
    close_task store room sender task_number now =
      (store,
       if (getRoom store room).isEmpty then Reply.noTasks
       else Reply.invalidTaskNumber task_number, false) := by
  by_cases he : (getRoom store room).isEmpty
  · constructor <;> simp [done_task, close_task, he]
  · constructor <;> simp [done_task, close_task, he, h]

/-- Witness for C3 at a concrete input: position 5 on a one-task room. -/
theorem c3_remove_out_of_range_witness :
    ¬((0 : Int) < 5 ∧ (5 : Int) ≤
        ((getRoom [("!a", [Task.init "u" 0 "buy milk" "pending" (some []) none "ts"])] "!a").length : Int)) ∧
    done_task [("!a", [Task.init "u" 0 "buy milk" "pending" (some []) none "ts"])] "!a" "u" 5 "ts2" =
      ([("!a", [Task.init "u" 0 "buy milk" "pending" (some []) none "ts"])],
       if (getRoom [("!a", [Task.init "u" 0 "buy milk" "pending" (some []) none "ts"])] "!a").isEmpty
       then Reply.noTasks else Reply.invalidTaskNumber 5, false) ∧
    close_task [("!a", [Task.init "u" 0 "buy milk" "pending" (some []) none "ts"])] "!a" "u" 5 "ts2" =
      ([("!a", [Task.init "u" 0 "buy milk" "pending" (some []) none "ts"])],
       if (getRoom [("!a", [Task.init "u" 0 "buy milk" "pending" (some []) none "ts"])] "!a").isEmpty
       then Reply.noTasks else Reply.invalidTaskNumber 5, false) := by
  refine ⟨by decide, ?_⟩
  exact c3_remove_out_of_range _ "!a" "u" "ts2" 5 (by decide)

/-- C3 counterexample: as stated the claim is false — a removal request on
an empty list yields the "no tasks" info reply, not the "invalid task
number" reply. -/
theorem c3_counterexample :
    (done_task [] "!a" "u" 1 "ts").2.1 = Reply.noTasks ∧
    Reply.noTasks ≠ Reply.invalidTaskNumber 1 := by
  constructor
  · rfl
  · decide

/-! ### C4: failure-monitor termination policy -/

/-- C4: with `max_retries = 3` and the consecutive counter at zero, three
consecutive non-critical failures return terminate exactly on the third
call; two consecutive critical-kind failures return terminate on the
second call; and any success resets the consecutive counter to zero while
leaving the cumulative counter and the error-kind histogram unchanged. -/
theorem c4_connection_monitor (m : ConnectionMonitor)
    (hmax : m.max_retries = 3) (hzero : m.consecutive_failures = 0) :
    (∀ e1 e2 e3 : String, ∀ t1 t2 t3 : Nat,
       e1 ∉ critical_errors → e2 ∉ critical_errors → e3 ∉ critical_errors →
       (connection_failed m e1 t1).2 = false ∧
       (connection_failed (connection_failed m e1 t1).1 e2 t2).2 = false ∧
       (connection_failed (connection_failed (connection_failed m e1 t1).1 e2 t2).1 e3 t3).2
         = true) ∧
    (∀ e1 e2 : String, ∀ t1 t2 : Nat,
       e1 ∈ critical_errors → e2 ∈ critical_errors →
       (connection_failed m e1 t1).2 = false ∧
       (connection_failed (connection_failed m e1 t1).1 e2 t2).2 = true) ∧
    (∀ m0 : ConnectionMonitor,
       (connection_successful m0).consecutive_failures = 0 ∧
       (connection_successful m0).total_failures = m0.total_failures ∧
       (connection_successful m0).failure_types = m0.failure_types) := by
  refine ⟨?_, ?_, ?_⟩
  · intro e1 e2 e3 t1 t2 t3 h1 h2 h3
    simp [connection_failed, hzero, hmax, h1, h2, h3]
  · intro e1 e2 t1 t2 h1 h2
    simp [connection_failed, hzero, hmax, h1, h2]
  · intro m0
    exact ⟨rfl, rfl, rfl⟩

/-- Witness for C4 at a freshly initialized monitor with a non-critical
error kind and the critical `SyncError` kind. -/
theorem c4_connection_monitor_witness :
    (ConnectionMonitor.init 3).max_retries = 3 ∧
    (ConnectionMonitor.init 3).consecutive_failures = 0 ∧
    ((∀ e1 e2 e3 : String, ∀ t1 t2 t3 : Nat,
       e1 ∉ critical_errors → e2 ∉ critical_errors → e3 ∉ critical_errors →
       (connection_failed (ConnectionMonitor.init 3) e1 t1).2 = false ∧
       (connection_failed (connection_failed (ConnectionMonitor.init 3) e1 t1).1 e2 t2).2
         = false ∧
       (connection_failed
         (connection_failed (connection_failed (ConnectionMonitor.init 3) e1 t1).1 e2 t2).1
         e3 t3).2 = true) ∧
    (∀ e1 e2 : String, ∀ t1 t2 : Nat,
       e1 ∈ critical_errors → e2 ∈ critical_errors →
       (connection_failed (ConnectionMonitor.init 3) e1 t1).2 = false ∧
       (connection_failed (connection_failed (ConnectionMonitor.init 3) e1 t1).1 e2 t2).2
         = true) ∧
    (∀ m0 : ConnectionMonitor,
       (connection_successful m0).consecutive_failures = 0 ∧
       (connection_successful m0).total_failures = m0.total_failures ∧
       (connection_successful m0).failure_types = m0.failure_types)) :=
  ⟨rfl, rfl, c4_connection_monitor (ConnectionMonitor.init 3) rfl rfl⟩

/-! ### C6: sequences of `add_task` calls -/

/-- A sequence of `add_task` calls in one room, each given as
`(sender, title, timestamp)`. -/
def addAll : Store → String → List (String × String × String) → Store
  | store, _, [] => store
  | store, room, (sender, title, now) :: rest =>
      addAll (add_task store room sender title now).1 room rest

/-- The task list produced by a sequence of adds when the room already
holds `k` tasks. -/
def buildTasks (k : Nat) : List (String × String × String) → List Task
  | [] => []
  | (sender, title, now) :: rest =>
      Task.init sender k title "pending" (some []) none now :: buildTasks (k + 1) rest

theorem buildTasks_length (ops : List (String × String × String)) :
    ∀ k, (buildTasks k ops).length = ops.length := by
  induction ops with
  | nil => intro k; rfl
  | cons p rest ih =>
      intro k
      obtain ⟨s, t, n⟩ := p
      simp [buildTasks, ih]

theorem buildTasks_get? (ops : List (String × String × String)) :
    ∀ k i, (buildTasks k ops).get? i =
      (ops.get? i).map (fun p => Task.init p.1 (k + i) p.2.1 "pending" (some []) none p.2.2) := by
  induction ops with
  | nil => intro k i; simp [buildTasks]
  | cons p rest ih =>
      intro k i
      obtain ⟨s, t, n⟩ := p
      cases i with
      | zero => simp [buildTasks]
      | succ j =>
          simp only [buildTasks, List.get?_cons_succ, List.get?, ih]
          have h2 : ((k : Int) + 1 + (j : Int)) = (k : Int) + ((j : Int) + 1) := by ring
          push_cast
          rw [h2]

theorem getRoom_addAll (room : String) (ops : List (String × String × String)) :
    ∀ store, getRoom (addAll store room ops) room =
      getRoom store room ++ buildTasks (getRoom store room).length ops := by
  induction ops with
  | nil => intro store; simp [addAll, buildTasks]
  | cons p rest ih =>
      intro store
      obtain ⟨s, t, n⟩ := p
      have h1 : getRoom (add_task store room s t n).1 room =
          getRoom store room ++ [Task.init s (getRoom store room).length t "pending" (some []) none n] := by
        simp [add_task, getRoom_setRoom_self]
      calc getRoom (addAll store room ((s, t, n) :: rest)) room
      _ = getRoom (addAll (add_task store room s t n).1 room rest) room := rfl
      _ = getRoom (add_task store room s t n).1 room ++
            buildTasks (getRoom (add_task store room s t n).1 room).length rest := ih _
      _ = getRoom store room ++ buildTasks (getRoom store room).length ((s, t, n) :: rest) := by
            rw [h1]
            simp [buildTasks, List.append_assoc]

/-- C6: starting from a room with no tasks and applying only `add_task`
calls, the task at 1-based position N (0-based index `i = N − 1`) has id
`N − 1` and status "pending", the list length equals the number of adds,
and each individual `add_task` returns the task it appended at the end,
with id equal to the length of the list before the insertion. -/
theorem c6_add_sequence (store : Store) (room : String)
    (ops : List (String × String × String)) (h : getRoom store room = [])
    (i : Nat) (hi : i < ops.length) :
    (getRoom (addAll store room ops) room).length = ops.length ∧
    ((getRoom (addAll store room ops) room).get? i =
       some (Task.init (ops.get ⟨i, hi⟩).1 (i : Int) (ops.get ⟨i, hi⟩).2.1 "pending"
         (some []) none (ops.get ⟨i, hi⟩).2.2)) ∧
    (∀ s sender title now,
       (add_task s room sender title now).2 =
         Task.init sender ((getRoom s room).length : Int) title "pending" (some []) none now ∧
       getRoom (add_task s room sender title now).1 room =
         getRoom s room ++ [(add_task s room sender title now).2]) := by
  have hmain : getRoom (addAll store room ops) room = buildTasks 0 ops := by
    rw [getRoom_addAll room ops store, h]
    simp
  refine ⟨?_, ?_, ?_⟩
  · rw [hmain, buildTasks_length]
  · rw [hmain, buildTasks_get? ops 0 i, List.get?_eq_get hi]
    simp
  · intro s sender title now
    exact ⟨rfl, by simp [add_task, getRoom_setRoom_self]⟩

/-- Witness for C6: two adds into an empty store; the second task has id 1
and sits at 0-based index 1. -/
theorem c6_add_sequence_witness :
    getRoom [] "!a" = [] ∧ 1 < ([("u", "t1", "n1"), ("v", "t2", "n2")] :
      List (String × String × String)).length ∧
    ((getRoom (addAll [] "!a" [("u", "t1", "n1"), ("v", "t2", "n2")]) "!a").length = 2 ∧
     (getRoom (addAll [] "!a" [("u", "t1", "n1"), ("v", "t2", "n2")]) "!a").get? 1 =
       some (Task.init "v" (1 : Int) "t2" "pending" (some []) none "n2")) := by
  have := c6_add_sequence [] "!a" [("u", "t1", "n1"), ("v", "t2", "n2")] rfl 1 (by decide)
  exact ⟨rfl, by decide, this.1, this.2.1⟩

/-! ### The filename grammar: `save` output versus `filename_pattern` -/

theorem digit_lt_isDigit : ∀ m, m < 10 → (Char.ofNat (48 + m)).isDigit = true := by decide

/-- Every character produced by `digitChar` is a decimal digit. -/
theorem digitChar_isDigit (k : Nat) : (digitChar k).isDigit = true :=
  digit_lt_isDigit (k % 10) (Nat.mod_lt k (by norm_num))

/-- The timestamp part of a `save` filename always matches the fixed tail
of `filename_pattern`. -/
theorem tail_match (t : UtcTime) :
    matchClasses tailClasses ('_' :: (strftimeZdata t ++ ".json".data)) = true := by
  have hjson : (".json" : String).data = ['.', 'j', 's', 'o', 'n'] := rfl
  rw [hjson]
  simp [tailClasses, matchClasses, strftimeZdata, digitChar_isDigit]

/-- The length of the timestamp-plus-extension tail. -/
theorem tail_length (t : UtcTime) :
    ('_' :: (strftimeZdata t ++ ".json".data)).length = 26 := by
  simp [strftimeZdata]

/-- The regex matches `asmith_` followed by a non-empty newline-free
middle followed by any 26-character tail satisfying the classes. -/
theorem coreMatch_append (M T : List Char) (hM : M ≠ []) (hMnl : ∀ c ∈ M, c ≠ '\n')
    (hT : matchClasses tailClasses T = true) (hTlen : T.length = 26) :
    coreMatch (("asmith_" : String).data ++ (M ++ T)) = true := by
  have h7 : ("asmith_" : String).data.length = 7 := rfl
  have hn : (("asmith_" : String).data ++ (M ++ T)).length = 7 + (M.length + 26) := by
    simp [h7, hTlen]
    omega
  have hMpos : 0 < M.length := List.length_pos.mpr hM
  have h1 : 34 ≤ (("asmith_" : String).data ++ (M ++ T)).length := by
    rw [hn]; omega
  have h2 : (("asmith_" : String).data ++ (M ++ T)).take 7 = ("asmith_" : String).data := by
    conv_lhs => rw [← h7]
    exact List.take_left _ _
  have h3 : (("asmith_" : String).data ++ (M ++ T)).drop
      ((("asmith_" : String).data ++ (M ++ T)).length - 26) = T := by
    rw [hn, ← List.append_assoc]
    have hfront : (("asmith_" : String).data ++ M).length = 7 + M.length := by
      simp [h7]
      omega
    have : 7 + (M.length + 26) - 26 = (("asmith_" : String).data ++ M).length := by
      rw [hfront]; omega
    rw [this]
    exact List.drop_left _ _
  have h4 : ((("asmith_" : String).data ++ (M ++ T)).drop 7).take
      ((("asmith_" : String).data ++ (M ++ T)).length - 33) = M := by
    conv_lhs => rw [← h7]
    rw [List.drop_left, hn]
    have : 7 + (M.length + 26) - 33 = M.length := by omega
    rw [this]
    exact List.take_left _ _
  simp only [coreMatch, Bool.and_eq_true, decide_eq_true_eq, List.all_eq_true]
  refine ⟨⟨⟨h1, h2⟩, by rw [h3]; exact hT⟩, by rw [h4]; exact hM, ?_⟩
  rw [h4]
  intro c hc
  exact bne_iff_ne.mpr (hMnl c hc)

/-- The character data of a `save` filename, split as prefix, session id
and timestamp tail. -/
theorem save_filename_data (session_id : String) (t : UtcTime) :
    (save_filename session_id t).data =
      ("asmith_" : String).data ++
        (session_id.data ++ ('_' :: (strftimeZdata t ++ (".json" : String).data))) := by
  have h1 : ("asmith" : String).data ++ ("_" : String).data = ("asmith_" : String).data := rfl
  have h2 : ("_" : String).data = ['_'] := rfl
  simp only [save_filename, APP_NAME, strftimeZ, String.data_append, List.append_assoc, h2]
  rw [← List.append_assoc ("asmith" : String).data ['_'], ← h2, h1]
  rfl

/-- A non-empty string has non-empty character data. -/
theorem data_ne_nil_of_ne_empty (s : String) (h : s ≠ "") : s.data ≠ [] := by
  intro hd
  apply h
  cases s
  simp_all

/-- Every filename produced by `save` from a non-empty newline-free
session id matches `filename_pattern`. -/
theorem filename_pattern_match_save (session_id : String) (t : UtcTime)
    (h1 : session_id ≠ "") (h2 : ∀ c ∈ session_id.data, c ≠ '\n') :
    filename_pattern_match (save_filename session_id t) = true := by
  have hcore : coreMatch (save_filename session_id t).data = true := by
    rw [save_filename_data]
    exact coreMatch_append session_id.data _ (data_ne_nil_of_ne_empty _ h1) h2
      (tail_match t) (tail_length t)
  simp [filename_pattern_match, hcore]

/-! ### Serialization round trip -/

theorem pyOrEmptyList_some (l : List String) : pyOrEmptyList (some l) = l := by
  cases l <;> simp [pyOrEmptyList]

/-- Reconstructing a serialized task gives back the task, field by field:
the persisted `internal_logs` replace the fresh creation entry. -/
theorem loadTask_serializeTask (t : Task) (now : String) :
    loadTask (serializeTask t) now = some t := by
  cases t with
  | mk id title status logs ils creator =>
      simp [loadTask, serializeTask, Task.init, Task.add_internal_log, pyOrEmptyList_some]

theorem loadRoomTasks_map (ts : List Task) (now : String) :
    loadRoomTasks (ts.map serializeTask) now = some ts := by
  induction ts with
  | nil => rfl
  | cons t rest ih => simp [loadRoomTasks, loadTask_serializeTask, ih]

/-- Reconstructing a serialized mapping gives back the mapping. -/
theorem reconstructStore_serializeStore (store : Store) (now : String) :
    reconstructStore (serializeStore store) now = some store := by
  induction store with
  | nil => rfl
  | cons p rest ih =>
      obtain ⟨room, ts⟩ := p
      have ih2 : reconstructStore
          (List.map (fun p => (p.1, List.map serializeTask p.2)) rest) now = some rest := by
        simpa [serializeStore] using ih
      simp [serializeStore, reconstructStore, loadRoomTasks_map, ih2]

/-! ### C1: `save` followed by `load` of the returned filename -/

/-- C1: for any in-memory mapping, saving and then loading the returned
filename on the same store succeeds and reproduces the identical mapping —
ids, titles, statuses, logs, creators and history entries included.  The
session id is the one the program generates (`str(uuid.uuid4())`): a
non-empty string without newlines. -/
theorem c1_save_load_round_trip (fs : FileSystem) (store cur : Store)
    (session_id : String) (t : UtcTime) (now : String)
    (h1 : session_id ≠ "") (h2 : ∀ c ∈ session_id.data, c ≠ '\n') :
    StorageManager.load (StorageManager.save fs store session_id t).1 cur
      (StorageManager.save fs store session_id t).2 now = (store, true) := by
  have hmatch := filename_pattern_match_save session_id t h1 h2
  simp [StorageManager.save, StorageManager.load, hmatch, readParsedFile,
    reconstructStore_serializeStore]

/-- Witness for C1 at a concrete store with one task carrying logs and a
two-entry history. -/
theorem c1_save_load_round_trip_witness :
    ("s" : String) ≠ "" ∧ (∀ c ∈ ("s" : String).data, c ≠ '\n') ∧
    StorageManager.load
        (StorageManager.save [] [("!a", [Task.init "u" 0 "buy milk" "pending"
          (some ["note"]) none "ts"])] "s" ⟨2024, 1, 2, 3, 4, 5⟩).1
        []
        (StorageManager.save [] [("!a", [Task.init "u" 0 "buy milk" "pending"
          (some ["note"]) none "ts"])] "s" ⟨2024, 1, 2, 3, 4, 5⟩).2 "now" =
      ([("!a", [Task.init "u" 0 "buy milk" "pending" (some ["note"]) none "ts"])], true) :=
  ⟨by decide, by decide,
   c1_save_load_round_trip [] [("!a", [Task.init "u" 0 "buy milk" "pending"
     (some ["note"]) none "ts"])] [] "s" ⟨2024, 1, 2, 3, 4, 5⟩ "now" (by decide) (by decide)⟩

/-! ### C2: filenames rejected by the pattern -/

/-- C2 (amended): for every filename that fails `filename_pattern`,
`load` leaves the mapping unchanged and reports failure, independently of
the filesystem contents — i.e. without any filesystem access. -/
theorem c2_invalid_filename_rejected (filename : String)
    (h : filename_pattern_match filename = false)
    (fs : FileSystem) (cur : Store) (now : String) :
    StorageManager.load fs cur filename now = (cur, false) := by
  simp [StorageManager.load, h]

/-- Witness for C2 at the filename used by the repository's own test. -/
theorem c2_invalid_filename_rejected_witness :
    filename_pattern_match "invalid_file.txt" = false ∧
    StorageManager.load [("invalid_file.txt", some [])]
        [("!a", [])] "invalid_file.txt" "now" = ([("!a", [])], false) :=
  ⟨by decide,
   c2_invalid_filename_rejected "invalid_file.txt" (by decide)
     [("invalid_file.txt", some [])] [("!a", [])] "now"⟩

/-- C2 counterexample: the claim asserts that any filename containing `/`
or `..` fails the grammar; but `.+` in `filename_pattern` matches both, so
`load` accepts such a filename, reads the filesystem, and replaces the
mapping. -/
theorem c2_counterexample :
    filename_pattern_match "asmith_../x_2024-01-02_03-04-05Z.json" = true ∧
    StorageManager.load [("asmith_../x_2024-01-02_03-04-05Z.json", some [])]
        [("!a", [Task.init "u" 0 "t" "pending" (some []) none "ts"])]
        "asmith_../x_2024-01-02_03-04-05Z.json" "now" = ([], true) ∧
    ([("!a", [Task.init "u" 0 "t" "pending" (some []) none "ts"])] : Store) ≠ [] := by
  refine ⟨by decide, by decide, by decide⟩

/-! ### C7: valid filename, failing content -/

/-- C7: when the filename passes validation, a failed load (missing file,
malformed JSON, or an unreconstructable task record) leaves the mapping
exactly as it was, and a successful load replaces it with the full
reconstruction of the file's contents. -/
theorem c7_load_failure_leaves_state (fs : FileSystem) (cur : Store)
    (filename now : String) (hv : filename_pattern_match filename = true) :
    ((StorageManager.load fs cur filename now).2 = false →
       (StorageManager.load fs cur filename now).1 = cur) ∧
    ((StorageManager.load fs cur filename now).2 = true →
       ∃ data, readParsedFile fs filename = some data ∧
         reconstructStore data now = some (StorageManager.load fs cur filename now).1) := by
  unfold StorageManager.load
  rw [if_pos hv]
  cases hval : readParsedFile fs filename with
  | none => simp
  | some data =>
      cases hrec : reconstructStore data now with
      | none => simp [hrec]
      | some s => exact ⟨by simp [hrec], fun _ => ⟨data, rfl, by simp [hrec]⟩⟩

/-- Witness for C7: a structurally valid filename whose content is
malformed (the `json.load` exception path). -/
theorem c7_load_failure_leaves_state_witness :
    filename_pattern_match "asmith_s_2024-01-02_03-04-05Z.json" = true ∧
    (((StorageManager.load [("asmith_s_2024-01-02_03-04-05Z.json", none)]
        [("!a", [])] "asmith_s_2024-01-02_03-04-05Z.json" "now").2 = false →
      (StorageManager.load [("asmith_s_2024-01-02_03-04-05Z.json", none)]
        [("!a", [])] "asmith_s_2024-01-02_03-04-05Z.json" "now").1 = [("!a", [])]) ∧
     ((StorageManager.load [("asmith_s_2024-01-02_03-04-05Z.json", none)]
        [("!a", [])] "asmith_s_2024-01-02_03-04-05Z.json" "now").2 = true →
      ∃ data, readParsedFile [("asmith_s_2024-01-02_03-04-05Z.json", none)]
          "asmith_s_2024-01-02_03-04-05Z.json" = some data ∧
        reconstructStore data "now" =
          some (StorageManager.load [("asmith_s_2024-01-02_03-04-05Z.json", none)]
            [("!a", [])] "asmith_s_2024-01-02_03-04-05Z.json" "now").1)) :=
  ⟨by decide,
   c7_load_failure_leaves_state [("asmith_s_2024-01-02_03-04-05Z.json", none)]
     [("!a", [])] "asmith_s_2024-01-02_03-04-05Z.json" "now" (by decide)⟩

/-! ### C5: ordering of `list_saved_files` -/

/-- C5: the sort key `x[-24:-5]` misses the first digit of the year (the
19 characters before `.json` are `YYY-MM-DD_HH-MM-SSZ`, not the timestamp
`YYYY-MM-DD_HH-MM-SS`), so two validly named files from the years 1999 and
2000 are returned in decreasing timestamp order, and `loadlast` then
targets the 1999 file instead of the lexicographically-last (most recent)
one. -/
theorem c5_sort_key_off_by_one :
    list_saved_files
        ["asmith_s_1999-01-01_00-00-00Z.json", "asmith_s_2000-01-01_00-00-00Z.json"] =
      ["asmith_s_2000-01-01_00-00-00Z.json", "asmith_s_1999-01-01_00-00-00Z.json"] ∧
    sortKeySlice "asmith_s_1999-01-01_00-00-00Z.json" = "999-01-01_00-00-00Z" ∧
    (loadlast [] ["asmith_s_1999-01-01_00-00-00Z.json", "asmith_s_2000-01-01_00-00-00Z.json"]
        [] "now").2.2 = some "asmith_s_1999-01-01_00-00-00Z.json" := by
  refine ⟨by decide, by decide, by decide⟩

/-! ### C9: `save` filenames versus the validator -/

/-- C9 (amended): every filename produced by `save` from a non-empty
session id containing no newline — in particular every
`str(uuid.uuid4())` session id — matches `filename_pattern`, is returned
by `list_saved_files` for a directory containing it, and passes `load`'s
filename check so that `load` proceeds to the file's content. -/
theorem c9_save_filename_accepted (session_id : String) (t : UtcTime)
    (h1 : session_id ≠ "") (h2 : ∀ c ∈ session_id.data, c ≠ '\n') :
    filename_pattern_match (save_filename session_id t) = true ∧
    list_saved_files [save_filename session_id t] = [save_filename session_id t] ∧
    (∀ fs cur now data,
       readParsedFile fs (save_filename session_id t) = some data →
       StorageManager.load fs cur (save_filename session_id t) now =
         (match reconstructStore data now with
          | some s => (s, true)
          | none => (cur, false))) := by
  have hmatch := filename_pattern_match_save session_id t h1 h2
  refine ⟨hmatch, ?_, ?_⟩
  · simp [list_saved_files, sortByKey, insertByKey, hmatch]
  · intro fs cur now data hread
    simp [StorageManager.load, hmatch, hread]

/-- Witness for C9 at a uuid4-shaped session id. -/
theorem c9_save_filename_accepted_witness :
    ("123e4567-e89b-12d3-a456-426614174000" : String) ≠ "" ∧
    (∀ c ∈ ("123e4567-e89b-12d3-a456-426614174000" : String).data, c ≠ '\n') ∧
    (filename_pattern_match
        (save_filename "123e4567-e89b-12d3-a456-426614174000" ⟨2024, 1, 2, 3, 4, 5⟩) = true ∧
     list_saved_files [save_filename "123e4567-e89b-12d3-a456-426614174000" ⟨2024, 1, 2, 3, 4, 5⟩] =
       [save_filename "123e4567-e89b-12d3-a456-426614174000" ⟨2024, 1, 2, 3, 4, 5⟩]) := by
  have h := c9_save_filename_accepted "123e4567-e89b-12d3-a456-426614174000"
    ⟨2024, 1, 2, 3, 4, 5⟩ (by decide) (by decide)
  exact ⟨by decide, by decide, h.1, h.2.1⟩

/-- C9 counterexample: the claim quantifies over every non-empty session
id, but a session id containing a newline produces a filename that its own
validator rejects (`.` in the pattern does not match a newline). -/
theorem c9_counterexample :
    ("a\nb" : String) ≠ "" ∧
    filename_pattern_match (save_filename "a\nb" ⟨2024, 1, 2, 3, 4, 5⟩) = false := by
  refine ⟨by decide, by decide⟩

/-! ### C8: the history invariant over all reachable states -/

/-- The whole system state: the in-memory mapping plus the contents of
every snapshot file the program has written, in order. -/
structure SysState where
  todo_lists : Store
  files : List FileData

/-- Loading the `k`-th snapshot the program wrote: on reconstruction
failure the mapping is kept (`load` returns `False`). -/
def loadFromSaved (st : SysState) (k : Nat) (now : String) : Store :=
  match st.files.get? k with
  | some data =>
      match reconstructStore data now with
      | some s => s
      | none => st.todo_lists
  | none => st.todo_lists

/-- States reachable from a fresh `StorageManager` by the program's own
operations: the task commands, `clear`, `save`, and `load` of a snapshot
the program itself saved. -/
inductive Reachable : SysState → Prop where
  | init : Reachable ⟨[], []⟩
  | add_step (st : SysState) (room sender title now : String) : Reachable st →
      Reachable ⟨(add_task st.todo_lists room sender title now).1, st.files⟩
  | done_step (st : SysState) (room sender : String) (n : Int) (now : String) :
      Reachable st →
      Reachable ⟨(done_task st.todo_lists room sender n now).1, st.files⟩
  | close_step (st : SysState) (room sender : String) (n : Int) (now : String) :
      Reachable st →
      Reachable ⟨(close_task st.todo_lists room sender n now).1, st.files⟩
  | log_step (st : SysState) (room sender : String) (n : Int) (log now : String) :
      Reachable st →
      Reachable ⟨(log_task st.todo_lists room sender n log now).1, st.files⟩
  | edit_step (st : SysState) (room sender : String) (n : Int) (title now : String) :
      Reachable st →
      Reachable ⟨(edit_task st.todo_lists room sender n title now).1, st.files⟩
  | clear_step (st : SysState) (room : String) : Reachable st →
      Reachable ⟨(clear_tasks st.todo_lists room).1, st.files⟩
  | save_step (st : SysState) : Reachable st →
      Reachable ⟨st.todo_lists, st.files ++ [serializeStore st.todo_lists]⟩
  | load_step (st : SysState) (k : Nat) (now : String) : Reachable st →
      Reachable ⟨loadFromSaved st k now, st.files⟩

/-- The C8 invariant on one task: the history holds at least the creation
entry. -/
def taskHistoryOk (t : Task) : Prop := 1 ≤ t.internal_logs.length

/-- The C8 invariant on the in-memory mapping. -/
def storeInv (store : Store) : Prop := ∀ p ∈ store, ∀ t ∈ p.2, taskHistoryOk t

/-- The C8 invariant on one saved snapshot: every persisted task record
carries a non-empty history. -/
def fileInv (data : FileData) : Prop :=
  ∀ p ∈ data, ∀ d ∈ p.2, ∃ l, d.internal_logs = some l ∧ 1 ≤ l.length

theorem taskHistoryOk_add_internal_log (t : Task) (a b c d : String) :
    taskHistoryOk (t.add_internal_log a b c d) := by
  simp [Task.add_internal_log, taskHistoryOk]

theorem taskHistoryOk_init (sender : String) (id : Int) (title status : String)
    (logs : Option (List String)) (creator : Option String) (now : String) :
    taskHistoryOk (Task.init sender id title status logs creator now) :=
  taskHistoryOk_add_internal_log _ _ _ _ _

theorem taskHistoryOk_set_status (t : Task) (sender status now : String) :
    taskHistoryOk (t.set_status sender status now) :=
  taskHistoryOk_add_internal_log _ _ _ _ _

theorem taskHistoryOk_set_title (t : Task) (sender title now : String) :
    taskHistoryOk (t.set_title sender title now) :=
  taskHistoryOk_add_internal_log _ _ _ _ _

theorem taskHistoryOk_add_log (t : Task) (sender log now : String) :
    taskHistoryOk (t.add_log sender log now) :=
  taskHistoryOk_add_internal_log _ _ _ _ _

theorem storeInv_getRoom {store : Store} (h : storeInv store) (room : String) :
    ∀ t ∈ getRoom store room, taskHistoryOk t := by
  induction store with
  | nil => simp [getRoom]
  | cons p rest ih =>
      obtain ⟨r, ts⟩ := p
      intro t ht
      by_cases hr : r = room
      · rw [getRoom, if_pos hr] at ht
        exact h (r, ts) (by simp) t ht
      · rw [getRoom, if_neg hr] at ht
        exact ih (fun q hq => h q (List.mem_cons_of_mem _ hq)) t ht

theorem storeInv_setRoom {store : Store} (h : storeInv store) (room : String)
    {ts : List Task} (hts : ∀ t ∈ ts, taskHistoryOk t) :
    storeInv (setRoom store room ts) := by
  induction store with
  | nil =>
      intro p hp t ht
      simp [setRoom] at hp
      subst hp
      exact hts t ht
  | cons q rest ih =>
      obtain ⟨r, ts0⟩ := q
      by_cases hr : r = room
      · rw [setRoom, if_pos hr]
        intro p hp t ht
        rcases List.mem_cons.mp hp with h1 | h1
        · subst h1; exact hts t ht
        · exact h p (List.mem_cons_of_mem _ h1) t ht
      · rw [setRoom, if_neg hr]
        intro p hp t ht
        rcases List.mem_cons.mp hp with h1 | h1
        · subst h1; exact h (r, ts0) (by simp) t ht
        · exact ih (fun q hq => h q (List.mem_cons_of_mem _ hq)) p h1 t ht

theorem storeInv_add_task (store : Store) (room sender title now : String)
    (h : storeInv store) : storeInv (add_task store room sender title now).1 := by
  show storeInv (setRoom store room (getRoom store room ++
    [Task.init sender ((getRoom store room).length : Int) title "pending" (some []) none now]))
  apply storeInv_setRoom h room
  intro t ht
  rcases List.mem_append.mp ht with h1 | h1
  · exact storeInv_getRoom h room t h1
  · rw [List.mem_singleton] at h1
    subst h1
    exact taskHistoryOk_init _ _ _ _ _ _ _

theorem storeInv_done_task (store : Store) (room sender : String) (n : Int) (now : String)
    (h : storeInv store) : storeInv (done_task store room sender n now).1 := by
  unfold done_task
  dsimp only
  split
  · exact h
  · split
    · split
      · apply storeInv_setRoom h room
        intro t ht
        exact storeInv_getRoom h room t ((List.eraseIdx_sublist _ _).subset ht)
      · exact h
    · exact h

theorem storeInv_close_task (store : Store) (room sender : String) (n : Int) (now : String)
    (h : storeInv store) : storeInv (close_task store room sender n now).1 := by
  unfold close_task
  dsimp only
  split
  · exact h
  · split
    · split
      · apply storeInv_setRoom h room
        intro t ht
        exact storeInv_getRoom h room t ((List.eraseIdx_sublist _ _).subset ht)
      · exact h
    · exact h

theorem storeInv_log_task (store : Store) (room sender : String) (n : Int) (log now : String)
    (h : storeInv store) : storeInv (log_task store room sender n log now).1 := by
  unfold log_task
  dsimp only
  split
  · exact h
  · split
    · split
      · apply storeInv_setRoom h room
        intro t ht
        rcases List.mem_or_eq_of_mem_set ht with h1 | h1
        · exact storeInv_getRoom h room t h1
        · subst h1
          exact taskHistoryOk_add_log _ _ _ _
      · exact h
    · exact h

theorem storeInv_edit_task (store : Store) (room sender : String) (n : Int) (title now : String)
    (h : storeInv store) : storeInv (edit_task store room sender n title now).1 := by
  unfold edit_task
  dsimp only
  split
  · exact h
  · split
    · split
      · apply storeInv_setRoom h room
        intro t ht
        rcases List.mem_or_eq_of_mem_set ht with h1 | h1
        · exact storeInv_getRoom h room t h1
        · subst h1
          exact taskHistoryOk_set_title _ _ _ _
      · exact h
    · exact h

theorem storeInv_clear_tasks (store : Store) (room : String)
    (h : storeInv store) : storeInv (clear_tasks store room).1 := by
  unfold clear_tasks
  split
  · apply storeInv_setRoom h room
    simp
  · exact h

theorem fileInv_serializeStore {store : Store} (h : storeInv store) :
    fileInv (serializeStore store) := by
  intro p hp d hd
  simp only [serializeStore, List.mem_map] at hp
  obtain ⟨q, hq, rfl⟩ := hp
  simp only [List.mem_map] at hd
  obtain ⟨t, ht, rfl⟩ := hd
  exact ⟨t.internal_logs, rfl, h q hq t ht⟩

theorem loadTask_internal_logs {d : TaskData} {now : String} {t0 : Task}
    {l : List (String × String × String)}
    (h : loadTask d now = some t0) (hl : d.internal_logs = some l) :
    t0.internal_logs = l := by
  cases d with
  | mk id title status logs ils creator =>
      simp only at hl
      subst hl
      cases id <;> cases title <;> cases status <;> simp [loadTask] at h
      subst h
      rfl

theorem loadRoomTasks_ok {tds : List TaskData} {now : String} {ts : List Task}
    (hd : ∀ d ∈ tds, ∃ l, d.internal_logs = some l ∧ 1 ≤ l.length)
    (h : loadRoomTasks tds now = some ts) : ∀ t ∈ ts, taskHistoryOk t := by
  induction tds generalizing ts with
  | nil =>
      simp [loadRoomTasks] at h
      subst h
      simp
  | cons d rest ih =>
      simp only [loadRoomTasks] at h
      cases hlt : loadTask d now with
      | none => rw [hlt] at h; simp at h
      | some t0 =>
          cases hrest : loadRoomTasks rest now with
          | none => rw [hlt, hrest] at h; simp at h
          | some ts0 =>
              rw [hlt, hrest] at h
              simp only [Option.some.injEq] at h
              subst h
              intro t ht
              rcases List.mem_cons.mp ht with h1 | h1
              · subst h1
                obtain ⟨l, hl, hlen⟩ := hd d (by simp)
                have hil := loadTask_internal_logs hlt hl
                simp [taskHistoryOk, hil, hlen]
              · exact ih (fun q hq => hd q (List.mem_cons_of_mem _ hq)) hrest t h1

theorem storeInv_reconstruct {data : FileData} {now : String} {s : Store}
    (hf : fileInv data) (h : reconstructStore data now = some s) : storeInv s := by
  induction data generalizing s with
  | nil =>
      simp [reconstructStore] at h
      subst h
      intro p hp
      simp at hp
  | cons p rest ih =>
      obtain ⟨room, tds⟩ := p
      simp only [reconstructStore] at h
      cases hlt : loadRoomTasks tds now with
      | none => rw [hlt] at h; simp at h
      | some ts =>
          cases hrs : reconstructStore rest now with
          | none => rw [hlt, hrs] at h; simp at h
          | some s2 =>
              rw [hlt, hrs] at h
              simp only [Option.some.injEq] at h
              subst h
              intro q hq t ht
              rcases List.mem_cons.mp hq with h1 | h1
              · subst h1
                exact loadRoomTasks_ok (fun d hd => hf (room, tds) (by simp) d hd) hlt t ht
              · exact ih (fun r hr => hf r (List.mem_cons_of_mem _ hr)) hrs q h1 t ht

/-- Every reachable state satisfies the history invariant, both in memory
and in every snapshot the program has written. -/
theorem sysInv_reachable (st : SysState) (h : Reachable st) :
    storeInv st.todo_lists ∧ ∀ fd ∈ st.files, fileInv fd := by
  induction h with
  | init =>
      refine ⟨?_, ?_⟩
      · intro p hp
        simp at hp
      · intro fd hfd
        simp at hfd
  | add_step st room sender title now _ ih =>
      exact ⟨storeInv_add_task _ _ _ _ _ ih.1, ih.2⟩
  | done_step st room sender n now _ ih =>
      exact ⟨storeInv_done_task _ _ _ _ _ ih.1, ih.2⟩
  | close_step st room sender n now _ ih =>
      exact ⟨storeInv_close_task _ _ _ _ _ ih.1, ih.2⟩
  | log_step st room sender n log now _ ih =>
      exact ⟨storeInv_log_task _ _ _ _ _ _ ih.1, ih.2⟩
  | edit_step st room sender n title now _ ih =>
      exact ⟨storeInv_edit_task _ _ _ _ _ _ ih.1, ih.2⟩
  | clear_step st room _ ih =>
      exact ⟨storeInv_clear_tasks _ _ ih.1, ih.2⟩
  | save_step st _ ih =>
      refine ⟨ih.1, ?_⟩
      intro fd hfd
      rcases List.mem_append.mp hfd with h1 | h1
      · exact ih.2 fd h1
      · rw [List.mem_singleton] at h1
        subst h1
        exact fileInv_serializeStore ih.1
  | load_step st k now _ ih =>
      refine ⟨?_, ih.2⟩
      show storeInv (loadFromSaved st k now)
      cases hget : st.files[k]? with
      | none => simpa [loadFromSaved, hget] using ih.1
      | some data =>
          cases hrec : reconstructStore data now with
          | none => simpa [loadFromSaved, hget, hrec] using ih.1
          | some s =>
              simpa [loadFromSaved, hget, hrec] using
                storeInv_reconstruct (ih.2 data (List.getElem?_mem hget)) hrec

/-- C8: in every state reachable through the program's own operations
(task creation and mutation, clear, save, and load of program-written
snapshots) every task's history has length at least one — in memory and
inside every snapshot file — and the task mutators only ever append to the
`logs` and `internal_logs` sequences, never shortening them. -/
theorem c8_history_invariant (st : SysState) (h : Reachable st) :
    storeInv st.todo_lists ∧
    (∀ fd ∈ st.files, fileInv fd) ∧
    (∀ (tk : Task) (sender status now : String),
       (tk.set_status sender status now).logs = tk.logs ∧
       ∃ e, (tk.set_status sender status now).internal_logs = tk.internal_logs ++ [e]) ∧
    (∀ (tk : Task) (sender title now : String),
       (tk.set_title sender title now).logs = tk.logs ∧
       ∃ e, (tk.set_title sender title now).internal_logs = tk.internal_logs ++ [e]) ∧
    (∀ (tk : Task) (sender log now : String),
       (tk.add_log sender log now).logs = tk.logs ++ [log] ∧
       ∃ e, (tk.add_log sender log now).internal_logs = tk.internal_logs ++ [e]) := by
  obtain ⟨h1, h2⟩ := sysInv_reachable st h
  refine ⟨h1, h2, ?_, ?_, ?_⟩
  · intro tk sender status now
    exact ⟨rfl, _, rfl⟩
  · intro tk sender title now
    exact ⟨rfl, _, rfl⟩
  · intro tk sender log now
    exact ⟨rfl, _, rfl⟩

/-- Witness for C8: the state after one `add_task` from the initial state
is reachable and satisfies the invariant. -/
theorem c8_history_invariant_witness :
    Reachable ⟨(add_task [] "!a" "u" "buy milk" "ts").1, []⟩ ∧
    (storeInv (add_task [] "!a" "u" "buy milk" "ts").1 ∧
     (∀ fd ∈ ([] : List FileData), fileInv fd) ∧
     (∀ (tk : Task) (sender status now : String),
        (tk.set_status sender status now).logs = tk.logs ∧
        ∃ e, (tk.set_status sender status now).internal_logs = tk.internal_logs ++ [e]) ∧
     (∀ (tk : Task) (sender title now : String),
        (tk.set_title sender title now).logs = tk.logs ∧
        ∃ e, (tk.set_title sender title now).internal_logs = tk.internal_logs ++ [e]) ∧
     (∀ (tk : Task) (sender log now : String),
        (tk.add_log sender log now).logs = tk.logs ++ [log] ∧
        ∃ e, (tk.add_log sender log now).internal_logs = tk.internal_logs ++ [e])) := by
  have hR : Reachable ⟨(add_task [] "!a" "u" "buy milk" "ts").1, []⟩ :=
    Reachable.add_step ⟨[], []⟩ "!a" "u" "buy milk" "ts" Reachable.init
  exact ⟨hR, c8_history_invariant _ hR⟩

end Asmith
